import Mathlib

/-!
# restart: a process supervisor with flap-rate failover

A shallow embedding of `main.go`: the restart history and its pruning
(`tooManyRestartsInHour`), the argument split at `---`, the supervisor loop as
a machine over the program points of the loop body, and the signal goroutine as
a function of the state it reads.

Instants are clock readings in nanoseconds and durations are nanosecond counts,
both as integers; `Sub` is the saturating difference of `time.Time.Sub`.
-/

namespace Restart

/-! ## Time -/

/-- The duration `time.Second`, in nanoseconds. -/
def Second : Int := 1000000000

/-- The duration `time.Hour`, in nanoseconds. -/
def Hour : Int := 3600 * Second

/-- Largest value of a `time.Duration` (an int64). -/
def maxDuration : Int := 9223372036854775807

/-- Smallest value of a `time.Duration` (an int64). -/
def minDuration : Int := -9223372036854775808

/-- The method `t.Sub(u)` of `time.Time`: the difference `t - u`, replaced by the
largest or smallest duration when it does not fit. -/
def Sub (t u : Int) : Int :=
  if maxDuration < t - u then maxDuration
  else if t - u < minDuration then minDuration
  else t - u

/-- The constant `maxRestartsPerHour` (line 21). -/
def maxRestartsPerHour : Nat := 3

/-! ## The restart history -/

/-- The loop of `tooManyRestartsInHour` (lines 113 to 119): at index `i`, a
record older than an hour is cut out of the slice and the index stays, any other
record is stepped over. -/
def pruneLoop (now : Int) (restartTimes : List Int) (i : Nat) : List Int :=
  if h : i < restartTimes.length then
    if Sub now restartTimes[i] > Hour then
      pruneLoop now (restartTimes.take i ++ restartTimes.drop (i + 1)) i
    else
      pruneLoop now restartTimes (i + 1)
  else restartTimes
termination_by restartTimes.length - i
decreasing_by
  all_goals simp_wf
  · have h1 : min i restartTimes.length = i := Nat.min_eq_left (Nat.le_of_lt h)
    omega
  · omega

/-- The function `tooManyRestartsInHour` (lines 111 to 121) reading the clock as
`now`: the answer, and the global `restartTimes` as the function leaves it. -/
def tooManyRestartsInHour (now : Int) (restartTimes : List Int) : Bool × List Int :=
  let restartTimes := pruneLoop now restartTimes 0
  (decide (restartTimes.length > maxRestartsPerHour), restartTimes)

/-- A record taken at `t` has age at most one hour at `now`. -/
def inWindow (now t : Int) : Bool := decide (now - t ≤ Hour)

/-! ## Startup: the argument split -/

/-- The search of lines 37 to 43 over the arguments from position `i` on: the
index of the first `---`, or `-1`. -/
def findSeparator : List String → Int → Int
  | [], _ => -1
  | arg :: args, i => if arg = "---" then i else findSeparator args (i + 1)

/-- The variable `separatorIndex` after the loop of lines 37 to 43. -/
def separatorIndex (args : List String) : Int := findSeparator args 0

/-- The variables `cmd` and `backupCmd` after lines 45 to 54. -/
def splitArgs (args : List String) : List String × List String :=
  let sep := separatorIndex args
  if sep ≠ -1 ∧ sep < (args.length : Int) - 1 then
    (args.take sep.toNat, args.drop (sep.toNat + 1))
  else
    (args, [])

/-- How `main` leaves its startup (lines 32 to 54). -/
inductive Startup
  /-- The usage message is printed and the process exits with code 1. -/
  | usage
  /-- A run-time panic: index out of range. -/
  | indexPanic
  /-- The message `no such executable` is printed for `f` and the process exits
  with code 1. -/
  | noSuchExecutable (f : String)
  /-- The supervisor loop is entered with these two command vectors. -/
  | loop (cmd backupCmd : List String)
  deriving DecidableEq, Repr

/-- The function `verifyExecutablesExists` (lines 123 to 130): the first name
that is not found, if any; `executableExists` is the look-up in the search
path. -/
def verifyExecutablesExists (executableExists : String → Bool) : List String → Option String
  | [] => none
  | f :: fp =>
    if !executableExists f then some f else verifyExecutablesExists executableExists fp

/-- The startup of `main` (lines 32 to 54) on the positional arguments `args`. -/
def startup (executableExists : String → Bool) (args : List String) : Startup :=
  if args.length < 1 then .usage
  else
    let sep := separatorIndex args
    if sep ≠ -1 ∧ sep < (args.length : Int) - 1 then
      let cmd := args.take sep.toNat
      let backupCmd := args.drop (sep.toNat + 1)
      match cmd[0]?, backupCmd[0]? with
      | some c, some b =>
        match verifyExecutablesExists executableExists [c, b] with
        | some f => .noSuchExecutable f
        | none => .loop cmd backupCmd
      | _, _ => .indexPanic
    else
      match args[0]? with
      | some c =>
        match verifyExecutablesExists executableExists [c] with
        | some f => .noSuchExecutable f
        | none => .loop args []
      | none => .indexPanic

/-! ## The supervisor loop -/

/-- The two signals registered at line 60. -/
inductive Signal
  | SIGINT
  | SIGTERM
  deriving DecidableEq, Repr

/-- How a child ended, as `Wait` reports it. -/
inductive ExitStatus
  | exited (code : Nat)
  | signaled (sig : Nat)
  deriving DecidableEq, Repr

/-- The method `ExitCode` of a process state: `-1` without a state and for a
child ended by a signal. -/
def ExitCode : Option ExitStatus → Int
  | some (.exited code) => code
  | some (.signaled _) => -1
  | none => -1

/-- The fields of an `exec.Cmd` the program sets or reads. -/
structure Cmd where
  Args : List String
  Setpgid : Bool
  Process : Option Nat
  ProcessState : Option ExitStatus
  deriving DecidableEq, Repr

/-- What the loop does that is seen from outside. -/
inductive Event
  /-- A call of `time.Sleep`. -/
  | sleep (d : Int)
  /-- The warning of line 84. -/
  | warnBackup
  /-- The message of line 88. -/
  | running (cmd : List String)
  /-- The call `command.Start()` on a command with these arguments. -/
  | spawn (args : List String) (setpgid : Bool)
  /-- The warning of line 101. -/
  | startFailed
  /-- The warning of line 107. -/
  | died (code : Int)
  deriving DecidableEq, Repr

/-- The program points of the loop of lines 78 to 108. -/
inductive PC
  /-- Before the test `ctx.Err() == nil` of line 78. -/
  | loopCond
  /-- Before the test of line 79. -/
  | backoff
  /-- Inside `time.Sleep`, line 81. -/
  | sleeping
  /-- Before line 83. -/
  | select
  /-- Before line 87. -/
  | record
  /-- Before line 88. -/
  | construct
  /-- Before `command.Start()`, line 99. -/
  | start
  /-- Inside `command.Wait()`, line 106. -/
  | wait
  /-- Before line 107. -/
  | logDied
  /-- The loop is left and `main` returns. -/
  | returned
  /-- A run-time panic. -/
  | panicked
  deriving DecidableEq, Repr

/-- The variables of `main` during the loop, and what was done so far. -/
structure Machine where
  pc : PC
  childDetach : Bool
  restartTimes : List Int
  cmd : List String
  backupCmd : List String
  command : Option Cmd
  log : List Event
  deriving DecidableEq, Repr

/-- What the world answers during one pass of the loop: whether the context is
cancelled at line 78, the three clock readings (lines 79, 112 and 87), whether
`Start` succeeds and with which process, and how the child ends. -/
structure Env where
  cancelled : Bool
  nowSince : Int
  nowPrune : Int
  nowRecord : Int
  start : Option Nat
  status : ExitStatus
  deriving DecidableEq, Repr

/-- The test of line 79 with the clock read as `now`. -/
def lastRestartRecent (now : Int) (restartTimes : List Int) : Bool :=
  decide (restartTimes.length > 0) &&
    match restartTimes[restartTimes.length - 1]? with
    | some last => decide (Sub now last < Second * 10)
    | none => false

/-- One step of the loop, from one program point to the next. -/
def step (env : Env) (m : Machine) : Machine :=
  match m.pc with
  | .loopCond =>
    if env.cancelled then { m with pc := .returned } else { m with pc := .backoff }
  | .backoff =>
    if lastRestartRecent env.nowSince m.restartTimes then
      { m with pc := .sleeping, log := m.log ++ [.sleep (1 * Second)] }
    else { m with pc := .select }
  | .sleeping => { m with pc := .select }
  | .select =>
    let r := tooManyRestartsInHour env.nowPrune m.restartTimes
    if r.1 && decide (m.backupCmd.length > 0) then
      { m with pc := .record, restartTimes := r.2, cmd := m.backupCmd,
               log := m.log ++ [.warnBackup] }
    else { m with pc := .record, restartTimes := r.2 }
  | .record => { m with pc := .construct, restartTimes := m.restartTimes ++ [env.nowRecord] }
  | .construct =>
    match m.cmd with
    | [] => { m with pc := .panicked, log := m.log ++ [.running []] }
    | name :: arg =>
      { m with pc := .start, log := m.log ++ [.running (name :: arg)],
               command := some { Args := name :: arg, Setpgid := m.childDetach,
                                 Process := none, ProcessState := none } }
  | .start =>
    match m.command with
    | none => { m with pc := .panicked }
    | some c =>
      match env.start with
      | none =>
        { m with pc := .loopCond, log := m.log ++ [.spawn c.Args c.Setpgid, .startFailed] }
      | some pid =>
        { m with pc := .wait, log := m.log ++ [.spawn c.Args c.Setpgid],
                 command := some { c with Process := some pid } }
  | .wait =>
    match m.command with
    | none => { m with pc := .panicked }
    | some c => { m with pc := .logDied, command := some { c with ProcessState := some env.status } }
  | .logDied =>
    match m.command with
    | none => { m with pc := .panicked }
    | some c => { m with pc := .loopCond, log := m.log ++ [.died (ExitCode c.ProcessState)] }
  | .returned => m
  | .panicked => m

/-- The machine stands between two passes of the loop, or has left it. -/
def atBoundary (pc : PC) : Bool :=
  match pc with
  | .loopCond | .returned | .panicked => true
  | _ => false

/-- The steps of one pass, up to the next test of the loop condition. -/
def runBody : Nat → Env → Machine → Machine
  | 0, _, m => m
  | n + 1, env, m => if atBoundary m.pc then m else runBody n env (step env m)

/-- One pass of the loop from the test of its condition: the test, then the
body (at most eight steps) up to the next test. -/
def iteration (env : Env) (m : Machine) : Machine :=
  runBody 8 env (step env m)

/-- The loop over as many passes as answers are given. -/
def mainLoop : List Env → Machine → Machine
  | [], m => m
  | env :: envs, m => mainLoop envs (iteration env m)

/-- A run step by step, each step with its own answers. -/
def run : List Env → Machine → Machine
  | [], m => m
  | env :: envs, m => run envs (step env m)

/-- The machine when the loop is first reached (line 78). -/
def initial (childDetach : Bool) (cmd backupCmd : List String) : Machine :=
  { pc := .loopCond, childDetach := childDetach, restartTimes := [], cmd := cmd,
    backupCmd := backupCmd, command := none, log := [] }

/-- The commands handed to `Start`, in order. -/
def launched : List Event → List (List String)
  | [] => []
  | .spawn args _ :: evs => args :: launched evs
  | _ :: evs => launched evs

/-- The durations slept, in order. -/
def sleeps : List Event → List Int
  | [] => []
  | .sleep d :: evs => d :: sleeps evs
  | _ :: evs => sleeps evs

/-! ## The signal goroutine -/

/-- What the signal goroutine does. -/
inductive Action
  /-- The call `command.Process.Signal(sig)` on the process `pid`. -/
  | forward (pid : Nat) (sig : Signal)
  /-- The error message of line 71. -/
  | logForwardFailed
  /-- The call `cancel()`. -/
  | cancel
  /-- The call `os.Exit(code)`. -/
  | exit (code : Nat)
  deriving DecidableEq, Repr

/-- The goroutine of lines 61 to 76 on the signal `sig`, reading `command` as it
is then; `signalFails` tells whether the call of `Signal` returns an error. -/
def signalHandler (childDetach : Bool) (command : Option Cmd) (sig : Signal)
    (signalFails : Bool) : List Action :=
  if childDetach then [.exit 0]
  else
    (match command with
      | some c =>
        match c.Process with
        | some pid => .forward pid sig :: (if signalFails then [.logForwardFailed] else [])
        | none => []
      | none => []) ++ [.cancel, .exit 0]

/-- The calls of `Signal` in a list of actions, with the process each is made on. -/
def forwards : List Action → List (Nat × Signal)
  | [] => []
  | .forward pid sig :: as => (pid, sig) :: forwards as
  | _ :: as => forwards as

/-- The exit codes of a list of actions. -/
def exits : List Action → List Nat
  | [] => []
  | .exit code :: as => code :: exits as
  | _ :: as => exits as

/-- The process handle the signal goroutine finds in `command`. -/
def handle (m : Machine) : Option Nat :=
  match m.command with
  | some c => c.Process
  | none => none

/-- The error result of `command.Process.Signal(sig)`, after the `os` package: on
a process that `Wait` has returned for, the call sends nothing and returns the
error `os: process already finished`; on any other process it returns an error
exactly when the system call fails (`killFails`). In this program `Wait` has
returned for the process of a command exactly when its `ProcessState` is set
(line 106). -/
def signalError (c : Cmd) (killFails : Bool) : Bool :=
  c.ProcessState.isSome || killFails

/-- The signal goroutine of lines 61 to 76 with the `Signal` of the `os` package
for the call of line 70. -/
def signalPath (childDetach : Bool) (command : Option Cmd) (sig : Signal)
    (killFails : Bool) : List Action :=
  signalHandler childDetach command sig
    (match command with
      | some c => signalError c killFails
      | none => killFails)

/-- The signals that reach a process: those of the calls of `Signal` that return
no error, which are the calls not followed by the message of line 71. -/
def delivered : List Action → List (Nat × Signal)
  | [] => []
  | .forward _ _ :: .logForwardFailed :: as => delivered as
  | .forward pid sig :: as => (pid, sig) :: delivered as
  | _ :: as => delivered as

/-- The test of line 83 as a count: more than three records of the last hour,
and a backup command. -/
def failover (now : Int) (restartTimes : List Int) (backupCmd : List String) : Prop :=
  3 < (restartTimes.filter (inWindow now)).length ∧ backupCmd ≠ []

instance failoverDecidable (now : Int) (restartTimes : List Int) (backupCmd : List String) :
    Decidable (failover now restartTimes backupCmd) :=
  inferInstanceAs (Decidable (_ ∧ _))

/-- Sample answers of the world: every clock reading is `t`, nothing is
cancelled, and a started child ends with exit code 1. -/
def sampleEnv (t : Int) (start : Option Nat) : Env :=
  { cancelled := false, nowSince := t, nowPrune := t, nowRecord := t, start := start,
    status := .exited 1 }

/-- Six sample passes a nanosecond apart, the third with a failed start. -/
def sampleRun : List Env :=
  [sampleEnv 0 (some 1), sampleEnv 1 (some 2), sampleEnv 2 none, sampleEnv 3 (some 4),
   sampleEnv 4 (some 5), sampleEnv 5 (some 6)]

/-- A sample machine between two passes: four records, the last child ended. -/
def sampleMachine : Machine :=
  { pc := .loopCond, childDetach := false, restartTimes := [0, 1, 2, 3],
    cmd := ["primary", "-v"], backupCmd := ["backup"],
    command := some { Args := ["primary", "-v"], Setpgid := false, Process := some 4,
                      ProcessState := some (.exited 1) },
    log := [] }

/-- A sample machine blocked in `Wait` on the child with process number 7. -/
def sampleWaiting : Machine :=
  { pc := .wait, childDetach := false, restartTimes := [5], cmd := ["a"], backupCmd := [],
    command := some { Args := ["a"], Setpgid := false, Process := some 7,
                      ProcessState := none },
    log := [.running ["a"], .spawn ["a"] false] }

/-- A sample machine about to build its second command, the first child (process
number 7) having ended. -/
def sampleConstruct : Machine :=
  { pc := .construct, childDetach := false, restartTimes := [5, 6], cmd := ["a"],
    backupCmd := [],
    command := some { Args := ["a"], Setpgid := false, Process := some 7,
                      ProcessState := some (.exited 1) },
    log := [.running ["a"], .spawn ["a"] false, .died 1, .sleep Second] }

/-! ### Lemmas on the history -/

theorem Sub_gt_Hour_iff (now t : Int) : Sub now t > Hour ↔ now - t > Hour := by
  unfold Sub Hour Second maxDuration minDuration
  split_ifs <;> omega

theorem Sub_lt_ten_iff (now t : Int) : Sub now t < 10 * Second ↔ now - t < 10 * Second := by
  unfold Sub Second maxDuration minDuration
  split_ifs <;> omega

theorem pruneLoop_eq (now : Int) (restartTimes : List Int) (i : Nat) :
    pruneLoop now restartTimes i
      = restartTimes.take i ++ (restartTimes.drop i).filter (inWindow now) := by
  induction restartTimes, i using pruneLoop.induct now with
  | case1 xs i h hold ih =>
    rw [pruneLoop, dif_pos h, if_pos hold, ih]
    have hd : xs.drop i = xs[i] :: xs.drop (i + 1) := by
      simp
    have hlen : (xs.take i).length = i := by
      simp [Nat.min_eq_left (Nat.le_of_lt h)]
    have hout : inWindow now xs[i] = false := by
      have h1 := (Sub_gt_Hour_iff now xs[i]).1 hold
      simp only [inWindow, decide_eq_false_iff_not]
      omega
    rw [hd, List.filter_cons_of_neg (by simp [hout])]
    rw [List.take_append_of_le_length (by omega), List.drop_append_of_le_length (by omega)]
    rw [List.take_take, Nat.min_self, List.drop_of_length_le (by omega)]
    simp
  | case2 xs i h hyoung ih =>
    rw [pruneLoop, dif_pos h, if_neg hyoung, ih]
    have hd : xs.drop i = xs[i] :: xs.drop (i + 1) := by
      simp
    have hin : inWindow now xs[i] = true := by
      have h1 := (Sub_gt_Hour_iff now xs[i]).not.1 hyoung
      simp only [inWindow, decide_eq_true_eq]
      omega
    have ht : xs.take (i + 1) = xs.take i ++ [xs[i]] := by
      rw [List.take_succ, List.getElem?_eq_getElem h]
      rfl
    rw [hd, List.filter_cons_of_pos hin, ht, List.append_assoc]
    rfl
  | case3 xs i h =>
    rw [pruneLoop, dif_neg h]
    have h1 : xs.length ≤ i := Nat.le_of_not_lt h
    simp [List.take_of_length_le h1, List.drop_eq_nil_of_le h1]

theorem tooManyRestartsInHour_snd (now : Int) (restartTimes : List Int) :
    (tooManyRestartsInHour now restartTimes).2 = restartTimes.filter (inWindow now) := by
  simp [tooManyRestartsInHour, pruneLoop_eq]

theorem tooManyRestartsInHour_fst (now : Int) (restartTimes : List Int) :
    (tooManyRestartsInHour now restartTimes).1
      = decide (3 < (restartTimes.filter (inWindow now)).length) := by
  simp [tooManyRestartsInHour, pruneLoop_eq, maxRestartsPerHour]

/-! ### One pass of the loop, step by step -/

theorem runBody_boundary (n : Nat) (env : Env) (m : Machine) (h : atBoundary m.pc = true) :
    runBody n env m = m := by
  cases n with
  | zero => rfl
  | succ n => simp [runBody, h]

theorem runBody_step (n : Nat) (env : Env) (m : Machine) (h : atBoundary m.pc = false) :
    runBody (n + 1) env m = runBody n env (step env m) := by
  simp [runBody, h]

theorem runBody_logDied (n : Nat) (env : Env) (cd : Bool) (rt : List Int)
    (cmd bk : List String) (c : Cmd) (log : List Event) :
    runBody (n + 1) env ⟨.logDied, cd, rt, cmd, bk, some c, log⟩
      = ⟨.loopCond, cd, rt, cmd, bk, some c, log ++ [.died (ExitCode c.ProcessState)]⟩ := by
  rw [runBody_step _ _ _ (by rfl)]
  exact runBody_boundary _ _ _ (by rfl)

theorem runBody_wait (n : Nat) (env : Env) (cd : Bool) (rt : List Int)
    (cmd bk : List String) (c : Cmd) (log : List Event) :
    runBody (n + 2) env ⟨.wait, cd, rt, cmd, bk, some c, log⟩
      = ⟨.loopCond, cd, rt, cmd, bk, some { c with ProcessState := some env.status },
          log ++ [.died (ExitCode (some env.status))]⟩ := by
  rw [runBody_step _ _ _ (by rfl)]
  exact runBody_logDied _ _ _ _ _ _ _ _

theorem runBody_start (n : Nat) (env : Env) (cd : Bool) (rt : List Int)
    (cmd bk : List String) (c : Cmd) (log : List Event) :
    runBody (n + 3) env ⟨.start, cd, rt, cmd, bk, some c, log⟩
      = ⟨.loopCond, cd, rt, cmd, bk,
          some (match env.start with
            | none => c
            | some pid => { c with Process := some pid, ProcessState := some env.status }),
          log ++ .spawn c.Args c.Setpgid ::
            (match env.start with
              | none => [.startFailed]
              | some _ => [.died (ExitCode (some env.status))])⟩ := by
  rw [runBody_step _ _ _ (by rfl)]
  cases hs : env.start with
  | none =>
    simp only [step, hs]
    rw [runBody_boundary _ _ _ (by rfl)]
  | some pid =>
    simp only [step, hs]
    rw [runBody_wait]
    simp

theorem runBody_construct (n : Nat) (env : Env) (cd : Bool) (rt : List Int)
    (cmd bk : List String) (command : Option Cmd) (log : List Event) (hcmd : cmd ≠ []) :
    runBody (n + 4) env ⟨.construct, cd, rt, cmd, bk, command, log⟩
      = ⟨.loopCond, cd, rt, cmd, bk,
          some { Args := cmd, Setpgid := cd, Process := env.start,
                 ProcessState := env.start.map (fun _ => env.status) },
          log ++ .running cmd :: .spawn cmd cd ::
            (match env.start with
              | none => [.startFailed]
              | some _ => [.died (ExitCode (some env.status))])⟩ := by
  rw [runBody_step _ _ _ (by rfl)]
  cases cmd with
  | nil => exact absurd rfl hcmd
  | cons name arg =>
    simp only [step]
    rw [runBody_start]
    cases hs : env.start <;> simp

theorem runBody_record (n : Nat) (env : Env) (cd : Bool) (rt : List Int)
    (cmd bk : List String) (command : Option Cmd) (log : List Event) (hcmd : cmd ≠ []) :
    runBody (n + 5) env ⟨.record, cd, rt, cmd, bk, command, log⟩
      = ⟨.loopCond, cd, rt ++ [env.nowRecord], cmd, bk,
          some { Args := cmd, Setpgid := cd, Process := env.start,
                 ProcessState := env.start.map (fun _ => env.status) },
          log ++ .running cmd :: .spawn cmd cd ::
            (match env.start with
              | none => [.startFailed]
              | some _ => [.died (ExitCode (some env.status))])⟩ := by
  rw [runBody_step _ _ _ (by rfl)]
  simp only [step]
  exact runBody_construct _ _ _ _ _ _ _ _ hcmd

theorem runBody_select (n : Nat) (env : Env) (cd : Bool) (rt : List Int)
    (cmd bk : List String) (command : Option Cmd) (log : List Event) (hcmd : cmd ≠ []) :
    runBody (n + 6) env ⟨.select, cd, rt, cmd, bk, command, log⟩
      = ⟨.loopCond, cd, rt.filter (inWindow env.nowPrune) ++ [env.nowRecord],
          if failover env.nowPrune rt bk then bk else cmd, bk,
          some { Args := if failover env.nowPrune rt bk then bk else cmd,
                 Setpgid := cd, Process := env.start,
                 ProcessState := env.start.map (fun _ => env.status) },
          log ++ (if failover env.nowPrune rt bk then [.warnBackup] else [])
            ++ .running (if failover env.nowPrune rt bk then bk else cmd)
            :: .spawn (if failover env.nowPrune rt bk then bk else cmd) cd ::
            (match env.start with
              | none => [.startFailed]
              | some _ => [.died (ExitCode (some env.status))])⟩ := by
  rw [runBody_step _ _ _ (by rfl)]
  by_cases hf : failover env.nowPrune rt bk
  · have hbk : bk ≠ [] := hf.2
    have h1 : ((tooManyRestartsInHour env.nowPrune rt).1
        && decide (bk.length > 0)) = true := by
      rw [tooManyRestartsInHour_fst]
      simp [hf.1, List.length_pos.2 hbk]
    simp only [step, h1, if_true, if_pos hf, tooManyRestartsInHour_snd]
    rw [runBody_record _ _ _ _ _ _ _ _ hbk]
  · have h1 : ((tooManyRestartsInHour env.nowPrune rt).1
        && decide (bk.length > 0)) = false := by
      rw [tooManyRestartsInHour_fst]
      by_cases h3 : 3 < (rt.filter (inWindow env.nowPrune)).length
      · have : bk = [] := by
          by_contra hne; exact hf ⟨h3, hne⟩
        simp [this]
      · simp [h3]
    simp only [step, h1, if_neg hf, tooManyRestartsInHour_snd, Bool.false_eq_true, if_false]
    rw [runBody_record _ _ _ _ _ _ _ _ hcmd]
    simp

theorem runBody_backoff (n : Nat) (env : Env) (cd : Bool) (rt : List Int)
    (cmd bk : List String) (command : Option Cmd) (log : List Event) (hcmd : cmd ≠ []) :
    runBody (n + 8) env ⟨.backoff, cd, rt, cmd, bk, command, log⟩
      = ⟨.loopCond, cd, rt.filter (inWindow env.nowPrune) ++ [env.nowRecord],
          if failover env.nowPrune rt bk then bk else cmd, bk,
          some { Args := if failover env.nowPrune rt bk then bk else cmd,
                 Setpgid := cd, Process := env.start,
                 ProcessState := env.start.map (fun _ => env.status) },
          log ++ (if lastRestartRecent env.nowSince rt then [.sleep (1 * Second)] else [])
            ++ (if failover env.nowPrune rt bk then [.warnBackup] else [])
            ++ .running (if failover env.nowPrune rt bk then bk else cmd)
            :: .spawn (if failover env.nowPrune rt bk then bk else cmd) cd ::
            (match env.start with
              | none => [.startFailed]
              | some _ => [.died (ExitCode (some env.status))])⟩ := by
  rw [runBody_step _ _ _ (by rfl)]
  by_cases hr : lastRestartRecent env.nowSince rt = true
  · simp only [step, hr, if_true]
    rw [runBody_step _ _ _ (by rfl)]
    simp only [step]
    rw [runBody_select _ _ _ _ _ _ _ _ hcmd]
  · simp only [step, hr, Bool.false_eq_true, if_false]
    rw [runBody_select (n + 1) _ _ _ _ _ _ _ hcmd]
    simp

/-- The state after one pass of the loop, written out. -/
theorem iteration_eq (env : Env) (m : Machine) (hpc : m.pc = .loopCond)
    (hc : env.cancelled = false) (hcmd : m.cmd ≠ []) :
    iteration env m =
      ⟨.loopCond, m.childDetach,
        m.restartTimes.filter (inWindow env.nowPrune) ++ [env.nowRecord],
        if failover env.nowPrune m.restartTimes m.backupCmd then m.backupCmd else m.cmd,
        m.backupCmd,
        some { Args := if failover env.nowPrune m.restartTimes m.backupCmd
                         then m.backupCmd else m.cmd,
               Setpgid := m.childDetach, Process := env.start,
               ProcessState := env.start.map (fun _ => env.status) },
        m.log
          ++ (if lastRestartRecent env.nowSince m.restartTimes then [.sleep (1 * Second)] else [])
          ++ (if failover env.nowPrune m.restartTimes m.backupCmd then [.warnBackup] else [])
          ++ .running (if failover env.nowPrune m.restartTimes m.backupCmd
                         then m.backupCmd else m.cmd)
          :: .spawn (if failover env.nowPrune m.restartTimes m.backupCmd
                       then m.backupCmd else m.cmd) m.childDetach ::
          (match env.start with
            | none => [.startFailed]
            | some _ => [.died (ExitCode (some env.status))])⟩ := by
  obtain ⟨pc, cd, rt, cmd, bk, command, log⟩ := m
  simp only at hpc hcmd
  subst hpc
  simp only [iteration, step, hc, Bool.false_eq_true, if_false]
  exact runBody_backoff 0 env cd rt cmd bk command log hcmd

/-! ### The argument split -/

theorem findSeparator_absent (args : List String) (i : Int) (h : "---" ∉ args) :
    findSeparator args i = -1 := by
  induction args generalizing i with
  | nil => rfl
  | cons a rest ih =>
    have ha : a ≠ "---" := fun e => h (by simp [e])
    have hr : "---" ∉ rest := fun e => h (List.mem_cons_of_mem _ e)
    simp [findSeparator, ha, ih _ hr]

theorem findSeparator_first (pre post : List String) (i : Int) (h : "---" ∉ pre) :
    findSeparator (pre ++ "---" :: post) i = i + pre.length := by
  induction pre generalizing i with
  | nil => simp [findSeparator]
  | cons a rest ih =>
    have ha : a ≠ "---" := fun e => h (by simp [e])
    have hr : "---" ∉ rest := fun e => h (List.mem_cons_of_mem _ e)
    simp [findSeparator, ha, ih _ hr]
    omega

theorem splitArgs_absent (args : List String) (h : "---" ∉ args) :
    splitArgs args = (args, []) := by
  simp [splitArgs, separatorIndex, findSeparator_absent args 0 h]

theorem splitArgs_trailing (pre : List String) (h : "---" ∉ pre) :
    splitArgs (pre ++ ["---"]) = (pre ++ ["---"], []) := by
  simp [splitArgs, separatorIndex, findSeparator_first pre [] 0 h]

theorem splitArgs_separator (pre post : List String) (h : "---" ∉ pre) (hpost : post ≠ []) :
    splitArgs (pre ++ "---" :: post) = (pre, post) := by
  simp [splitArgs, separatorIndex, findSeparator_first pre post 0 h]
  exact hpost

theorem inWindow_eq (now : Int) : inWindow now = fun t => decide (now - t ≤ Hour) := rfl

theorem count_filter_inWindow (now t : Int) (xs : List Int) :
    (xs.filter (inWindow now)).count t = if now - t ≤ Hour then xs.count t else 0 := by
  by_cases h : now - t ≤ Hour
  · rw [if_pos h]
    exact List.count_filter (decide_eq_true h)
  · rw [if_neg h]
    apply List.count_eq_zero_of_not_mem
    intro hm
    have h2 := (List.mem_filter.1 hm).2
    exact h (of_decide_eq_true h2)

/-! ### The process handle along a run -/

theorem handle_step (env : Env) (m : Machine) (h1 : m.pc ≠ .construct) (h2 : m.pc ≠ .start) :
    handle (step env m) = handle m := by
  obtain ⟨pc, cd, rt, cmd, bk, command, log⟩ := m
  simp only at h1 h2
  cases pc <;> simp only [step] <;> first | rfl | contradiction | (split <;> rfl)

theorem step_pc_start (env : Env) (m : Machine) (h : (step env m).pc = .start) :
    m.pc = .construct := by
  obtain ⟨pc, cd, rt, cmd, bk, command, log⟩ := m
  cases pc <;> simp only [step] at h <;>
    first
    | rfl
    | cases h
    | (split at h <;> first | cases h | (split at h <;> cases h))
  

theorem step_pc_wait (env : Env) (m : Machine) (h : (step env m).pc = .wait) :
    m.pc = .start := by
  obtain ⟨pc, cd, rt, cmd, bk, command, log⟩ := m
  cases pc <;> simp only [step] at h <;>
    first
    | rfl
    | cases h
    | (split at h <;> cases h)

theorem command_step (env : Env) (m : Machine) (h1 : m.pc ≠ .construct) (h2 : m.pc ≠ .start)
    (h3 : m.pc ≠ .wait) : (step env m).command = m.command := by
  obtain ⟨pc, cd, rt, cmd, bk, command, log⟩ := m
  simp only at h1 h2 h3
  cases pc <;> simp only [step] <;> first | rfl | contradiction | (split <;> rfl)

/-- The variable `command` is untouched by every step but the construction of a
command, `Start` and the return of `Wait`. -/
theorem command_run_kept (envs : List Env) (m : Machine) (hs : m.pc ≠ .start)
    (hw : m.pc ≠ .wait)
    (hnc : ∀ i, i < envs.length → (run (envs.take i) m).pc ≠ .construct) :
    (run envs m).command = m.command := by
  induction envs generalizing m with
  | nil => rfl
  | cons e rest ih =>
    have h0 : m.pc ≠ .construct := hnc 0 (by simp)
    rw [run, ih (step e m)]
    · exact command_step e m h0 hs hw
    · intro h; exact h0 (step_pc_start e m h)
    · intro h; exact hs (step_pc_wait e m h)
    · intro i hi
      have := hnc (i + 1) (by simpa using hi)
      simpa [run] using this

theorem handle_step_none (env : Env) (m : Machine) (hh : handle m = none)
    (hs : m.pc = .start → env.start = none) : handle (step env m) = none := by
  by_cases h1 : m.pc = .construct
  · obtain ⟨pc, cd, rt, cmd, bk, command, log⟩ := m
    simp only at h1
    subst h1
    cases cmd <;> simp only [step] <;> first | exact hh | rfl
  · by_cases h2 : m.pc = .start
    · obtain ⟨pc, cd, rt, cmd, bk, command, log⟩ := m
      simp only at h2
      subst h2
      have h3 := hs rfl
      cases command with
      | none => exact hh
      | some c => simp only [step, h3]; exact hh
    · rw [handle_step env m h1 h2]; exact hh

theorem handle_run_none (envs : List Env) (m : Machine) (hh : handle m = none)
    (hns : ∀ i e, envs[i]? = some e → (run (envs.take i) m).pc = .start → e.start = none) :
    handle (run envs m) = none := by
  induction envs generalizing m with
  | nil => exact hh
  | cons e rest ih =>
    apply ih (step e m)
    · exact handle_step_none e m hh (fun h => hns 0 e (by simp) (by simpa [run] using h))
    · intro i e2 hi hpc
      exact hns (i + 1) e2 (by simpa using hi) (by simpa [run] using hpc)

theorem signalPath_no_handle (m : Machine) (sig : Signal) (killFails : Bool)
    (h : handle m = none) : signalPath false m.command sig killFails = [.cancel, .exit 0] := by
  obtain ⟨pc, cd, rt, cmd, bk, command, log⟩ := m
  cases command with
  | none => rfl
  | some c =>
    obtain ⟨a, s, p, ps⟩ := c
    simp only [handle] at h
    subst h
    rfl

/-! ### The log of one pass -/

theorem launched_append (l1 l2 : List Event) : launched (l1 ++ l2) = launched l1 ++ launched l2 := by
  induction l1 with
  | nil => rfl
  | cons e rest ih => cases e <;> simp [launched, ih]

theorem sleeps_append (l1 l2 : List Event) : sleeps (l1 ++ l2) = sleeps l1 ++ sleeps l2 := by
  induction l1 with
  | nil => rfl
  | cons e rest ih => cases e <;> simp [sleeps, ih]

theorem lastRestartRecent_eq (now : Int) (restartTimes : List Int) :
    lastRestartRecent now restartTimes
      = match restartTimes.getLast? with
        | some last => decide (now - last < 10 * Second)
        | none => false := by
  unfold lastRestartRecent
  rw [List.getLast?_eq_getElem?]
  cases h : restartTimes[restartTimes.length - 1]? with
  | none => simp
  | some last =>
    have hlen : 0 < restartTimes.length := by
      by_contra hn
      have : restartTimes = [] := List.length_eq_zero.1 (by omega)
      subst this
      simp at h
    have h2 : (Sub now last < Second * 10) ↔ (now - last < 10 * Second) := by
      rw [mul_comm]; exact Sub_lt_ten_iff now last
    simp [hlen, h2]

theorem launched_iteration (env : Env) (m : Machine) (hpc : m.pc = .loopCond)
    (hc : env.cancelled = false) (hcmd : m.cmd ≠ []) :
    launched (iteration env m).log
      = launched m.log ++ [if failover env.nowPrune m.restartTimes m.backupCmd
                              then m.backupCmd else m.cmd] := by
  rw [iteration_eq env m hpc hc hcmd]
  simp only [launched_append]
  by_cases hr : lastRestartRecent env.nowSince m.restartTimes = true <;>
  by_cases hf : failover env.nowPrune m.restartTimes m.backupCmd <;>
  cases env.start <;>
  simp [hr, hf, launched]

theorem sleeps_iteration (env : Env) (m : Machine) (hpc : m.pc = .loopCond)
    (hc : env.cancelled = false) (hcmd : m.cmd ≠ []) :
    sleeps (iteration env m).log
      = sleeps m.log ++ (if lastRestartRecent env.nowSince m.restartTimes
                            then [1 * Second] else []) := by
  rw [iteration_eq env m hpc hc hcmd]
  simp only [sleeps_append]
  by_cases hr : lastRestartRecent env.nowSince m.restartTimes = true <;>
  by_cases hf : failover env.nowPrune m.restartTimes m.backupCmd <;>
  cases env.start <;>
  simp [hr, hf, sleeps]

theorem iteration_pc (env : Env) (m : Machine) (hpc : m.pc = .loopCond)
    (hc : env.cancelled = false) (hcmd : m.cmd ≠ []) : (iteration env m).pc = .loopCond := by
  rw [iteration_eq env m hpc hc hcmd]

theorem iteration_restartTimes (env : Env) (m : Machine) (hpc : m.pc = .loopCond)
    (hc : env.cancelled = false) (hcmd : m.cmd ≠ []) :
    (iteration env m).restartTimes
      = m.restartTimes.filter (inWindow env.nowPrune) ++ [env.nowRecord] := by
  rw [iteration_eq env m hpc hc hcmd]

theorem iteration_cmd (env : Env) (m : Machine) (hpc : m.pc = .loopCond)
    (hc : env.cancelled = false) (hcmd : m.cmd ≠ []) :
    (iteration env m).cmd
      = if failover env.nowPrune m.restartTimes m.backupCmd then m.backupCmd else m.cmd := by
  rw [iteration_eq env m hpc hc hcmd]

theorem iteration_backupCmd (env : Env) (m : Machine) (hpc : m.pc = .loopCond)
    (hc : env.cancelled = false) (hcmd : m.cmd ≠ []) :
    (iteration env m).backupCmd = m.backupCmd := by
  rw [iteration_eq env m hpc hc hcmd]

theorem iteration_cmd_ne_nil (env : Env) (m : Machine) (hpc : m.pc = .loopCond)
    (hc : env.cancelled = false) (hcmd : m.cmd ≠ []) : (iteration env m).cmd ≠ [] := by
  rw [iteration_cmd env m hpc hc hcmd]
  by_cases hf : failover env.nowPrune m.restartTimes m.backupCmd
  · rw [if_pos hf]; exact hf.2
  · rw [if_neg hf]; exact hcmd

/-- Once the backup is the current command, every later pass launches it. -/
theorem launched_mainLoop_backup (envs : List Env) (m : Machine) (hpc : m.pc = .loopCond)
    (hcs : ∀ e ∈ envs, e.cancelled = false) (hcmd : m.cmd ≠ []) (hb : m.cmd = m.backupCmd) :
    launched (mainLoop envs m).log
      = launched m.log ++ List.replicate envs.length m.backupCmd := by
  induction envs generalizing m with
  | nil => simp [mainLoop]
  | cons e rest ih =>
    have hc : e.cancelled = false := hcs e (by simp)
    have hcmd2 : (iteration e m).cmd = m.backupCmd := by
      rw [iteration_cmd e m hpc hc hcmd, hb]; simp
    have hbk2 := iteration_backupCmd e m hpc hc hcmd
    rw [mainLoop, ih (iteration e m) (iteration_pc e m hpc hc hcmd)
      (fun e2 h2 => hcs e2 (List.mem_cons_of_mem _ h2))
      (iteration_cmd_ne_nil e m hpc hc hcmd) (by rw [hcmd2, hbk2]),
      launched_iteration e m hpc hc hcmd, hbk2, hb]
    simp [List.replicate_succ]

/-- The commands launched by a run: the current command for some passes, then
the backup for all the others. -/
theorem launched_mainLoop (envs : List Env) (m : Machine) (hpc : m.pc = .loopCond)
    (hcs : ∀ e ∈ envs, e.cancelled = false) (hcmd : m.cmd ≠ []) :
    ∃ k, k ≤ envs.length ∧ launched (mainLoop envs m).log
      = launched m.log ++ List.replicate k m.cmd
          ++ List.replicate (envs.length - k) m.backupCmd := by
  induction envs generalizing m with
  | nil => exact ⟨0, Nat.le_refl _, by simp [mainLoop]⟩
  | cons e rest ih =>
    have hc : e.cancelled = false := hcs e (by simp)
    have hcs2 : ∀ e2 ∈ rest, e2.cancelled = false :=
      fun e2 h2 => hcs e2 (List.mem_cons_of_mem _ h2)
    have hbk2 := iteration_backupCmd e m hpc hc hcmd
    by_cases hf : failover e.nowPrune m.restartTimes m.backupCmd
    · have hcmd2 : (iteration e m).cmd = m.backupCmd := by
        rw [iteration_cmd e m hpc hc hcmd, if_pos hf]
      refine ⟨0, Nat.zero_le _, ?_⟩
      rw [mainLoop, launched_mainLoop_backup rest (iteration e m)
        (iteration_pc e m hpc hc hcmd) hcs2 (iteration_cmd_ne_nil e m hpc hc hcmd)
        (by rw [hcmd2, hbk2]), launched_iteration e m hpc hc hcmd, if_pos hf, hbk2]
      simp [List.replicate_succ]
    · have hcmd2 : (iteration e m).cmd = m.cmd := by
        rw [iteration_cmd e m hpc hc hcmd, if_neg hf]
      obtain ⟨k, hk, heq⟩ := ih (iteration e m) (iteration_pc e m hpc hc hcmd) hcs2
        (iteration_cmd_ne_nil e m hpc hc hcmd)
      refine ⟨k + 1, by simpa using hk, ?_⟩
      rw [mainLoop, heq, launched_iteration e m hpc hc hcmd, if_neg hf, hbk2, hcmd2]
      simp [List.replicate_succ]

/-- A run in which no record leaves the window: the pass after the fourth
record and all later ones launch the backup. -/
theorem launched_mainLoop_inWindow (primary backup : List String) (envs : List Env)
    (m : Machine) (hpc : m.pc = .loopCond) (hcs : ∀ e ∈ envs, e.cancelled = false)
    (hP : primary ≠ []) (hB : backup ≠ []) (hbk : m.backupCmd = backup)
    (hcmd : m.cmd = if 5 ≤ m.restartTimes.length then backup else primary)
    (hold : ∀ t ∈ m.restartTimes, ∀ e ∈ envs, e.nowPrune - t ≤ Hour)
    (hw : envs.Pairwise (fun a b => b.nowPrune - a.nowRecord ≤ Hour)) :
    launched (mainLoop envs m).log
      = launched m.log ++ (List.range envs.length).map
          (fun i => if 4 ≤ m.restartTimes.length + i then backup else primary) := by
  induction envs generalizing m with
  | nil => simp [mainLoop]
  | cons e rest ih =>
    have hc : e.cancelled = false := hcs e (by simp)
    have hcs2 : ∀ e2 ∈ rest, e2.cancelled = false :=
      fun e2 h2 => hcs e2 (List.mem_cons_of_mem _ h2)
    have hne : m.cmd ≠ [] := by
      rw [hcmd]; split <;> assumption
    have hfilter : m.restartTimes.filter (inWindow e.nowPrune) = m.restartTimes := by
      rw [List.filter_eq_self]
      intro t ht
      exact decide_eq_true (hold t ht e (by simp))
    have hrt : (iteration e m).restartTimes = m.restartTimes ++ [e.nowRecord] := by
      rw [iteration_restartTimes e m hpc hc hne, hfilter]
    have hfo : failover e.nowPrune m.restartTimes m.backupCmd ↔ 4 ≤ m.restartTimes.length := by
      unfold failover
      rw [hfilter, hbk]
      exact ⟨fun h => h.1, fun h => ⟨h, hB⟩⟩
    have hcmd2 : (iteration e m).cmd
        = if 4 ≤ m.restartTimes.length then backup else primary := by
      rw [iteration_cmd e m hpc hc hne]
      by_cases h4 : 4 ≤ m.restartTimes.length
      · rw [if_pos (hfo.2 h4), if_pos h4, hbk]
      · rw [if_neg (fun h => h4 (hfo.1 h)), if_neg h4, hcmd, if_neg (by omega)]
    have hpw := List.pairwise_cons.1 hw
    rw [mainLoop, ih (iteration e m) (iteration_pc e m hpc hc hne) hcs2
      (by rw [iteration_backupCmd e m hpc hc hne, hbk])
      (by rw [hcmd2, hrt]; simp)
      (by
        intro t ht e2 he2
        rw [hrt, List.mem_append] at ht
        rcases ht with ht | ht
        · exact hold t ht e2 (List.mem_cons_of_mem _ he2)
        · have : t = e.nowRecord := by simpa using ht
          subst this
          exact hpw.1 e2 he2)
      hpw.2,
      launched_iteration e m hpc hc hne, ← iteration_cmd e m hpc hc hne, hcmd2, hrt]
    simp [List.range_succ_eq_map, List.map_map, Function.comp_def, Nat.add_assoc, Nat.add_comm 1]


/-- When the loop is entered, the primary command is not empty and the two
commands are those of the split. -/
theorem startup_loop (executableExists : String → Bool) (args cmd backupCmd : List String)
    (h : startup executableExists args = .loop cmd backupCmd) :
    cmd ≠ [] ∧ splitArgs args = (cmd, backupCmd) := by
  unfold startup at h
  unfold splitArgs
  split at h
  · cases h
  · rename_i hlen
    simp only at h
    split at h
    · rename_i hsep
      rw [if_pos hsep]
      split at h
      · rename_i c b hc hb
        split at h
        · cases h
        · injection h with h1 h2
          subst h1 h2
          refine ⟨?_, rfl⟩
          intro hnil
          rw [hnil] at hc
          simp at hc
      · cases h
    · rename_i hsep
      rw [if_neg hsep]
      split at h
      · split at h
        · cases h
        · injection h with h1 h2
          subst h1 h2
          refine ⟨?_, rfl⟩
          intro hnil
          rw [hnil] at hlen
          simp at hlen
      · cases h


/-! ## The claims -/

/-- C2: pruning is exact. After `tooManyRestartsInHour` has run at `now`, the
history is the original history filtered by the test that the age `now - t`
is at most one hour:
the same records in the same order with the same multiplicity, a record being
kept exactly when its age is at most one hour (so one of age exactly one hour
stays and any older one goes). -/
theorem prune_exact (now : Int) (restartTimes : List Int) :
    (tooManyRestartsInHour now restartTimes).2
        = restartTimes.filter (fun t => decide (now - t ≤ Hour))
      ∧ (∀ t, t ∈ (tooManyRestartsInHour now restartTimes).2
              ↔ t ∈ restartTimes ∧ now - t ≤ Hour)
      ∧ (∀ t, (tooManyRestartsInHour now restartTimes).2.count t
              = if now - t ≤ Hour then restartTimes.count t else 0)
      ∧ (tooManyRestartsInHour now restartTimes).2.Sublist restartTimes := by
  have h := tooManyRestartsInHour_snd now restartTimes
  refine ⟨h, ?_, ?_, ?_⟩
  · intro t
    rw [h, List.mem_filter]
    exact and_congr_right (fun _ => decide_eq_true_iff)
  · intro t
    rw [h]
    exact count_filter_inWindow now t restartTimes
  · rw [h]
    exact List.filter_sublist _

/-- C3: the threshold test is strictly greater over the pruned history.
`tooManyRestartsInHour` answers true exactly when more than 3 records have age
at most one hour at `now`; older records do not count. -/
theorem threshold_strict (now : Int) (restartTimes : List Int) :
    ((tooManyRestartsInHour now restartTimes).1 = true
      ↔ 3 < restartTimes.countP (fun t => decide (now - t ≤ Hour))) := by
  rw [tooManyRestartsInHour_fst, List.countP_eq_length_filter, ← inWindow_eq]
  exact decide_eq_true_iff

/-- C1 fails: after five passes a nanosecond apart the fifth launches the backup;
at the sixth selection, three hours later, no record is within the hour, so the
claim asks for the primary, and the pass launches the backup again. -/
theorem selection_reverts_counterexample :
    launched (mainLoop (sampleRun.take 5) (initial false ["primary"] ["backup"])).log
        = [["primary"], ["primary"], ["primary"], ["primary"], ["backup"]]
      ∧ (mainLoop (sampleRun.take 5) (initial false ["primary"] ["backup"])).restartTimes.countP
            (fun t => decide ((sampleEnv (3 * Hour) (some 6)).nowPrune - t ≤ Hour)) = 0
      ∧ launched (iteration (sampleEnv (3 * Hour) (some 6))
            (mainLoop (sampleRun.take 5) (initial false ["primary"] ["backup"]))).log
        = [["primary"], ["primary"], ["primary"], ["primary"], ["backup"], ["backup"]] := by
  simp [sampleRun, mainLoop, iteration, runBody, atBoundary, step, initial, sampleEnv,
    tooManyRestartsInHour_fst, tooManyRestartsInHour_snd, lastRestartRecent, inWindow, Sub,
    Hour, Second, maxDuration, minDuration, launched]
/-- C1 as amended: selection is evaluated in every pass but is sticky. A pass
launches the backup when the backup is non-empty and more than 3 records remain
within the trailing hour after pruning, and otherwise launches the current
command, which it leaves unchanged; so any run launches the current command for
some number of passes and the backup in every pass after the first failover. -/
theorem selection_sticky (env : Env) (m : Machine) (envs : List Env)
    (hpc : m.pc = .loopCond) (hc : env.cancelled = false) (hcmd : m.cmd ≠ [])
    (hcs : ∀ e ∈ envs, e.cancelled = false) :
    launched (iteration env m).log
        = launched m.log ++
            [if 3 < m.restartTimes.countP (fun t => decide (env.nowPrune - t ≤ Hour))
                  ∧ m.backupCmd ≠ [] then m.backupCmd else m.cmd]
      ∧ (iteration env m).cmd
        = (if 3 < m.restartTimes.countP (fun t => decide (env.nowPrune - t ≤ Hour))
                  ∧ m.backupCmd ≠ [] then m.backupCmd else m.cmd)
      ∧ (iteration env m).backupCmd = m.backupCmd
      ∧ ∃ k, k ≤ envs.length ∧ launched (mainLoop envs m).log
          = launched m.log ++ List.replicate k m.cmd
              ++ List.replicate (envs.length - k) m.backupCmd := by
  have hf : (3 < m.restartTimes.countP (fun t => decide (env.nowPrune - t ≤ Hour))
      ∧ m.backupCmd ≠ []) = failover env.nowPrune m.restartTimes m.backupCmd := by
    rw [List.countP_eq_length_filter, ← inWindow_eq]; rfl
  refine ⟨?_, ?_, iteration_backupCmd env m hpc hc hcmd, launched_mainLoop envs m hpc hcs hcmd⟩
  · rw [launched_iteration env m hpc hc hcmd]
    simp only [hf]
  · rw [iteration_cmd env m hpc hc hcmd]
    simp only [hf]

/-- C1 as amended, at a sample machine and the sample run. -/
theorem selection_sticky_witness :
    (iteration (sampleEnv (3 * Hour) (some 6)) sampleMachine).backupCmd = ["backup"]
      ∧ ∃ k, k ≤ sampleRun.length ∧ launched (mainLoop sampleRun sampleMachine).log
          = launched sampleMachine.log ++ List.replicate k sampleMachine.cmd
              ++ List.replicate (sampleRun.length - k) sampleMachine.backupCmd :=
  (selection_sticky (sampleEnv (3 * Hour) (some 6)) sampleMachine sampleRun rfl rfl
    (by decide) (by decide)).2.2

/-- C4: the failover trigger. In a pass with a non-empty backup and at least 4
records of age at most one hour at selection time, the command handed to `Start`
is the backup, with its executable and arguments; and in a run from the empty
history in which every record is within one hour of every later selection, the
first four passes launch the primary and every later pass, the fifth and the
sixth among them, launches the backup. -/
theorem failover_trigger (env : Env) (m : Machine) (childDetach : Bool)
    (primary backup : List String) (envs : List Env)
    (hpc : m.pc = .loopCond) (hc : env.cancelled = false) (hcmd : m.cmd ≠ [])
    (hbk : m.backupCmd ≠ [])
    (h4 : 4 ≤ m.restartTimes.countP (fun t => decide (env.nowPrune - t ≤ Hour)))
    (hP : primary ≠ []) (hB : backup ≠ []) (hcs : ∀ e ∈ envs, e.cancelled = false)
    (hw : envs.Pairwise (fun a b => b.nowPrune - a.nowRecord ≤ Hour)) :
    (launched (iteration env m).log = launched m.log ++ [m.backupCmd]
        ∧ (iteration env m).command.map Cmd.Args = some m.backupCmd)
      ∧ launched (mainLoop envs (initial childDetach primary backup)).log
          = (List.range envs.length).map (fun i => if 4 ≤ i then backup else primary) := by
  have hf : failover env.nowPrune m.restartTimes m.backupCmd := by
    refine ⟨?_, hbk⟩
    rw [List.countP_eq_length_filter, ← inWindow_eq] at h4
    exact h4
  refine ⟨⟨?_, ?_⟩, ?_⟩
  · rw [launched_iteration env m hpc hc hcmd, if_pos hf]
  · rw [iteration_eq env m hpc hc hcmd]
    simp only [if_pos hf, Option.map_some']
  · have h := launched_mainLoop_inWindow primary backup envs (initial childDetach primary backup)
      rfl hcs hP hB rfl rfl (fun t ht => absurd ht (List.not_mem_nil t)) hw
    simpa [initial, launched] using h

/-- C4 at the sample machine (four records within the hour) and the sample run of
six passes. -/
theorem failover_trigger_witness :
    (launched (iteration (sampleEnv 4 none) sampleMachine).log
          = launched sampleMachine.log ++ [sampleMachine.backupCmd]
        ∧ (iteration (sampleEnv 4 none) sampleMachine).command.map Cmd.Args
          = some sampleMachine.backupCmd)
      ∧ launched (mainLoop sampleRun (initial true ["primary"] ["backup", "-x"])).log
          = (List.range sampleRun.length).map
              (fun i => if 4 ≤ i then ["backup", "-x"] else ["primary"]) :=
  failover_trigger (sampleEnv 4 none) sampleMachine true ["primary"] ["backup", "-x"] sampleRun
    rfl rfl (by decide) (by decide) (by decide) (by decide) (by decide) (by decide)
    (by simp [sampleRun, sampleEnv, Hour, Second])

/-- C5: the effect of a pass does not depend on the child. Whether `Start` fails
or succeeds and however the child ends, the history after the pass is the history
pruned at selection time with one record appended, the command is the one
selected, the machine is back at the loop condition, and the next pass is entered
unless the context is cancelled. -/
theorem iteration_effect (env : Env) (m : Machine) (start : Option Nat) (status : ExitStatus)
    (env2 : Env) (hpc : m.pc = .loopCond) (hc : env.cancelled = false) (hcmd : m.cmd ≠ []) :
    (iteration env m).restartTimes
        = m.restartTimes.filter (fun t => decide (env.nowPrune - t ≤ Hour)) ++ [env.nowRecord]
      ∧ (iteration env m).cmd
        = (if 3 < m.restartTimes.countP (fun t => decide (env.nowPrune - t ≤ Hour))
                  ∧ m.backupCmd ≠ [] then m.backupCmd else m.cmd)
      ∧ launched (iteration env m).log = launched m.log ++ [(iteration env m).cmd]
      ∧ (iteration env m).pc = .loopCond
      ∧ (step env2 (iteration env m)).pc = (if env2.cancelled then .returned else .backoff)
      ∧ (iteration { env with start := start, status := status } m).restartTimes
        = (iteration env m).restartTimes
      ∧ (iteration { env with start := start, status := status } m).cmd = (iteration env m).cmd
      ∧ (iteration { env with start := start, status := status } m).pc = (iteration env m).pc
      ∧ launched (iteration { env with start := start, status := status } m).log
        = launched (iteration env m).log := by
  have hf : (3 < m.restartTimes.countP (fun t => decide (env.nowPrune - t ≤ Hour))
      ∧ m.backupCmd ≠ []) = failover env.nowPrune m.restartTimes m.backupCmd := by
    rw [List.countP_eq_length_filter, ← inWindow_eq]; rfl
  have hc2 : ({ env with start := start, status := status } : Env).cancelled = false := hc
  refine ⟨iteration_restartTimes env m hpc hc hcmd, ?_, ?_, iteration_pc env m hpc hc hcmd,
    ?_, ?_, ?_, ?_, ?_⟩
  · rw [iteration_cmd env m hpc hc hcmd]
    simp only [hf]
  · rw [launched_iteration env m hpc hc hcmd, iteration_cmd env m hpc hc hcmd]
  · have h := iteration_pc env m hpc hc hcmd
    generalize iteration env m = m2 at h
    obtain ⟨pc, cd, rt, cmd, bk, command, log⟩ := m2
    simp only at h
    subst h
    cases hcan : env2.cancelled <;> simp [step, hcan]
  · rw [iteration_restartTimes _ m hpc hc2 hcmd, iteration_restartTimes env m hpc hc hcmd]
  · rw [iteration_cmd _ m hpc hc2 hcmd, iteration_cmd env m hpc hc hcmd]
  · rw [iteration_pc _ m hpc hc2 hcmd, iteration_pc env m hpc hc hcmd]
  · rw [launched_iteration _ m hpc hc2 hcmd, launched_iteration env m hpc hc hcmd]

/-- C5 at the sample machine: a pass with a failed start against the same pass
with a child ended by signal 9. -/
theorem iteration_effect_witness :
    (iteration (sampleEnv 7 none) sampleMachine).restartTimes
        = sampleMachine.restartTimes.filter (fun t => decide ((sampleEnv 7 none).nowPrune - t ≤ Hour))
            ++ [(sampleEnv 7 none).nowRecord]
      ∧ (iteration { sampleEnv 7 none with start := some 9, status := .signaled 9 }
            sampleMachine).restartTimes
        = (iteration (sampleEnv 7 none) sampleMachine).restartTimes :=
  have h := iteration_effect (sampleEnv 7 none) sampleMachine (some 9) (.signaled 9)
    (sampleEnv 8 none) rfl rfl (by decide)
  ⟨h.1, h.2.2.2.2.2.1⟩

/-- C6: the rapid-restart backoff. At the head of the loop body the machine goes
to sleep, for one second, exactly when the history has a last record and the
clock is less than 10 seconds past it; with an empty history it does not sleep.
Over a pass the only sleep is that one, and the last record of the history after
a pass is the record of that pass. -/
theorem backoff_rule (env : Env) (m : Machine) (hpc : m.pc = .loopCond)
    (hc : env.cancelled = false) (hcmd : m.cmd ≠ []) :
    step env { m with pc := .backoff }
        = (match m.restartTimes.getLast? with
            | some last =>
              if env.nowSince - last < 10 * Second then
                { m with pc := .sleeping, log := m.log ++ [.sleep Second] }
              else { m with pc := .select }
            | none => { m with pc := .select })
      ∧ sleeps (iteration env m).log
        = sleeps m.log ++
            (match m.restartTimes.getLast? with
              | some last => if env.nowSince - last < 10 * Second then [Second] else []
              | none => [])
      ∧ sleeps (iteration env (initial m.childDetach m.cmd m.backupCmd)).log = []
      ∧ (iteration env m).restartTimes.getLast? = some env.nowRecord
      ∧ Second = 1000000000 := by
  have hl := lastRestartRecent_eq env.nowSince m.restartTimes
  refine ⟨?_, ?_, ?_, ?_, rfl⟩
  · simp only [step, hl]
    cases m.restartTimes.getLast? with
    | none => simp
    | some last =>
      by_cases h : env.nowSince - last < 10 * Second <;> simp [h]
  · rw [sleeps_iteration env m hpc hc hcmd, hl]
    cases m.restartTimes.getLast? with
    | none => simp
    | some last =>
      by_cases h : env.nowSince - last < 10 * Second <;> simp [h]
  · rw [sleeps_iteration env (initial m.childDetach m.cmd m.backupCmd) rfl hc hcmd]
    simp [initial, lastRestartRecent, sleeps]
  · rw [iteration_restartTimes env m hpc hc hcmd]
    simp

/-- C6 at the sample machine, nine seconds after its last record: one sleep of a
second. -/
theorem backoff_rule_witness :
    sleeps (iteration (sampleEnv (9 * Second + 3) none) sampleMachine).log
        = sleeps sampleMachine.log ++
            (match sampleMachine.restartTimes.getLast? with
              | some last =>
                if (sampleEnv (9 * Second + 3) none).nowSince - last < 10 * Second
                  then [Second] else []
              | none => []) :=
  (backoff_rule (sampleEnv (9 * Second + 3) none) sampleMachine rfl rfl (by decide)).2.1

/-- C7: the decision of the signal goroutine. With detach set it does nothing but
exit with code 0. Without detach and with a process in `command` it first calls
`Signal` on that process with the signal received, once, and last exits with
code 0, whether or not the call failed; without a command, or with a command
that has no process, it sends nothing and exits with code 0. A child in `Wait`
is such a process in `command`. -/
theorem signal_decision (sig : Signal) (signalFails : Bool) (command : Option Cmd) (c : Cmd)
    (pid : Nat) (env : Env) (m : Machine) :
    (forwards (signalHandler true command sig signalFails) = []
        ∧ signalHandler true command sig signalFails = [.exit 0])
      ∧ (forwards (signalHandler false (some { c with Process := some pid }) sig signalFails)
            = [(pid, sig)]
          ∧ exits (signalHandler false (some { c with Process := some pid }) sig signalFails)
            = [0]
          ∧ (signalHandler false (some { c with Process := some pid }) sig signalFails).getLast?
            = some (.exit 0)
          ∧ (signalHandler false (some { c with Process := some pid }) sig signalFails).head?
            = some (.forward pid sig))
      ∧ (forwards (signalHandler false none sig signalFails) = []
          ∧ exits (signalHandler false none sig signalFails) = [0]
          ∧ forwards (signalHandler false (some { c with Process := none }) sig signalFails) = []
          ∧ exits (signalHandler false (some { c with Process := none }) sig signalFails) = [0])
      ∧ ((step { env with start := some pid } { m with pc := .start, command := some c }).pc
            = .wait
          ∧ forwards (signalHandler false
              (step { env with start := some pid } { m with pc := .start, command := some c }).command
              sig signalFails) = [(pid, sig)]) := by
  refine ⟨⟨rfl, rfl⟩, ⟨?_, ?_, ?_, rfl⟩, ⟨rfl, rfl, rfl, rfl⟩, ⟨rfl, ?_⟩⟩
  · cases signalFails <;> rfl
  · cases signalFails <;> rfl
  · cases signalFails <;> rfl
  · cases signalFails <;> rfl

/-- C8 fails on the code: with `---` as the first argument and at least one
argument after it, the startup neither prints the usage message nor exits with
code 1; the primary command is empty and `cmd[0]` panics. -/
theorem startup_separator_first_panics (executableExists : String → Bool) (b : String)
    (rest : List String) :
    startup executableExists ("---" :: b :: rest) = Startup.indexPanic
      ∧ splitArgs ("---" :: b :: rest) = ([], b :: rest)
      ∧ startup executableExists ["---", "b"] ≠ Startup.usage := by
  refine ⟨?_, ?_, ?_⟩
  · simp [startup, separatorIndex, findSeparator]
  · simp [splitArgs, separatorIndex, findSeparator]
  · simp [startup, separatorIndex, findSeparator]

/-- C9 fails: for the arguments `a ---` the primary command keeps the trailing
`---`, so the split differs from the split of `a` alone. -/
theorem split_trailing_counterexample :
    splitArgs ["a", "---"] = (["a", "---"], [])
      ∧ splitArgs ["a"] = (["a"], [])
      ∧ splitArgs ["a", "---"] ≠ splitArgs ["a"] := by
  decide

/-- C9 as amended: when at least one token follows the first `---`, the primary
command is the tokens before it and the backup the tokens after it; when the
first `---` is the last token it is no separator but an argument like any other:
the primary command is the whole list, the trailing `---` included, and the
backup is empty, as it is without any `---`. -/
theorem split_at_separator (pre post : List String) (hsep : "---" ∉ pre) (hpost : post ≠ []) :
    splitArgs (pre ++ "---" :: post) = (pre, post)
      ∧ splitArgs (pre ++ ["---"]) = (pre ++ ["---"], [])
      ∧ splitArgs pre = (pre, []) :=
  ⟨splitArgs_separator pre post hsep hpost, splitArgs_trailing pre hsep, splitArgs_absent pre hsep⟩

/-- C9 as amended, at the primary `a x` and the backup `b --- y`. -/
theorem split_at_separator_witness :
    splitArgs (["a", "x"] ++ "---" :: ["b", "---", "y"]) = (["a", "x"], ["b", "---", "y"])
      ∧ splitArgs (["a", "x"] ++ ["---"]) = (["a", "x"] ++ ["---"], [])
      ∧ splitArgs ["a", "x"] = (["a", "x"], []) :=
  split_at_separator ["a", "x"] ["b", "---", "y"] (by decide) (by decide)

/-- C10 fails: ten steps into a run `Wait` has returned for the first child
(process number 7), the machine is in the backoff sleep of the second pass, and
`command` still holds the process. The handle is not cleared: the signal
goroutine in attached mode passes the test of line 67 and calls `Signal` on the
ended child; the call returns an error, which is logged. -/
theorem handle_cleared_counterexample :
    (run (List.replicate 10 (sampleEnv 5 (some 7))) (initial false ["a"] [])).pc = .sleeping
      ∧ (run (List.replicate 10 (sampleEnv 5 (some 7))) (initial false ["a"] [])).command
          = some { Args := ["a"], Setpgid := false, Process := some 7,
                   ProcessState := some (.exited 1) }
      ∧ handle (run (List.replicate 10 (sampleEnv 5 (some 7))) (initial false ["a"] []))
          = some 7
      ∧ signalPath false
          (run (List.replicate 10 (sampleEnv 5 (some 7))) (initial false ["a"] [])).command
          .SIGTERM false = [.forward 7 .SIGTERM, .logForwardFailed, .cancel, .exit 0] := by
  simp [List.replicate, run, step, initial, sampleEnv, tooManyRestartsInHour_fst,
    tooManyRestartsInHour_snd, lastRestartRecent, Sub, Second, maxDuration, minDuration,
    signalPath, signalError, signalHandler, handle]

/-- C10 as amended: the process handle is not cleared when the child exits, and
still no signal reaches a process. From a machine in `Wait` on the process `pid`,
once `Wait` has returned and along any run that has not yet built the next
command (the exit message, the loop condition, the backoff sleep, selection and
recording), `command` holds the ended child with its process; in attached mode
the signal goroutine calls `Signal` on it, the call fails and is logged, and
nothing is delivered. Once the next command is built, and as long as no `Start`
succeeds (failed starts and the passes after them included), `command` has no
process, `Signal` is not called and nothing is delivered. A signal does reach
the child as long as `Wait` has not returned and the system call succeeds. -/
theorem handle_not_cleared (m : Machine) (c : Cmd) (pid : Nat) (e : Env) (envs : List Env)
    (m2 : Machine) (env : Env) (envs2 : List Env) (sig : Signal) (killFails : Bool)
    (hpc : m.pc = .wait) (hcm : m.command = some c) (hp : c.Process = some pid)
    (hnc : ∀ i, i < envs.length → (run (envs.take i) (step e m)).pc ≠ .construct)
    (hpc2 : m2.pc = .construct) (hcmd : m2.cmd ≠ [])
    (hns : ∀ i e2, envs2[i]? = some e2 → (run (envs2.take i) (step env m2)).pc = .start
              → e2.start = none) :
    ((run envs (step e m)).command = some { c with ProcessState := some e.status }
        ∧ handle (run envs (step e m)) = some pid
        ∧ signalPath false (run envs (step e m)).command sig killFails
            = [.forward pid sig, .logForwardFailed, .cancel, .exit 0]
        ∧ delivered (signalPath false (run envs (step e m)).command sig killFails) = [])
      ∧ (handle (run envs2 (step env m2)) = none
        ∧ signalPath false (run envs2 (step env m2)).command sig killFails
            = [.cancel, .exit 0]
        ∧ delivered (signalPath false (run envs2 (step env m2)).command sig killFails) = [])
      ∧ delivered (signalPath false (some { c with ProcessState := none }) sig false)
          = [(pid, sig)] := by
  have hstep : (step e m).pc = .logDied
      ∧ (step e m).command = some { c with ProcessState := some e.status } := by
    obtain ⟨pc, cd, rt, cmd, bk, command, log⟩ := m
    simp only at hpc hcm
    subst hpc hcm
    exact ⟨rfl, rfl⟩
  have hkept : (run envs (step e m)).command
      = some { c with ProcessState := some e.status } := by
    rw [command_run_kept envs (step e m) (by rw [hstep.1]; decide) (by rw [hstep.1]; decide) hnc,
      hstep.2]
  have hnone : handle (run envs2 (step env m2)) = none := by
    apply handle_run_none envs2 (step env m2) _ hns
    obtain ⟨pc, cd, rt, cmd, bk, command, log⟩ := m2
    simp only at hpc2 hcmd
    subst hpc2
    cases cmd with
    | nil => exact absurd rfl hcmd
    | cons a as => rfl
  have hpath : signalPath false (run envs (step e m)).command sig killFails
      = [.forward pid sig, .logForwardFailed, .cancel, .exit 0] := by
    rw [hkept]
    simp [signalPath, signalError, signalHandler, hp]
  have hpath2 := signalPath_no_handle (run envs2 (step env m2)) sig killFails hnone
  refine ⟨⟨hkept, ?_, hpath, ?_⟩, ⟨hnone, hpath2, ?_⟩, ?_⟩
  · simp only [handle, hkept, hp]
  · rw [hpath]; rfl
  · rw [hpath2]; rfl
  · simp [signalPath, signalError, signalHandler, hp, delivered]

/-- C10 as amended, at the sample machines: `Wait` returns and six steps later
the machine is about to build the next command, with the ended child still in
`command`; after the next command is built, nine steps with failed starts leave
`command` without a process. -/
theorem handle_not_cleared_witness :
    ((run (List.replicate 6 (sampleEnv 6 none)) (step (sampleEnv 6 none) sampleWaiting)).command
          = some { Args := ["a"], Setpgid := false, Process := some 7,
                   ProcessState := some (.exited 1) }
        ∧ delivered (signalPath false
            (run (List.replicate 6 (sampleEnv 6 none))
              (step (sampleEnv 6 none) sampleWaiting)).command .SIGINT false) = [])
      ∧ handle (run (List.replicate 9 (sampleEnv 7 none))
          (step (sampleEnv 7 none) sampleConstruct)) = none :=
  have h := handle_not_cleared sampleWaiting
    { Args := ["a"], Setpgid := false, Process := some 7, ProcessState := none } 7
    (sampleEnv 6 none) (List.replicate 6 (sampleEnv 6 none)) sampleConstruct
    (sampleEnv 7 none) (List.replicate 9 (sampleEnv 7 none)) .SIGINT false rfl rfl rfl
    (by
      intro i hi
      simp only [List.length_replicate] at hi
      interval_cases i <;>
        simp [List.replicate, run, step, sampleWaiting, sampleEnv, tooManyRestartsInHour_fst,
          tooManyRestartsInHour_snd, lastRestartRecent, Sub, Second, maxDuration, minDuration])
    rfl (by decide)
    (by
      intro i e2 he _
      have hm := List.getElem?_mem he
      rw [List.eq_of_mem_replicate hm]
      rfl)
  ⟨⟨h.1.1, h.1.2.2.2⟩, h.2.1.1⟩

end Restart
